import Mathlib

/-!
# A shallow embedding of the starcoder graph autoencoder

This file embeds the structural computation of `starcoder/ensemble.py`
(`GraphAutoencoder.__init__` and `GraphAutoencoder.forward`) and the field
codecs of `starcoder/fields.py` into Lean, and proves or refutes the
specification claims about them.

Modelling conventions:
* a torch tensor of floats is a `List (List ℚ)` (row major); machine floats
  carry no semantics here beyond NaN-ness, so raw batch columns, where NaN
  marks a missing value, are `List (List (Option ℚ))` with `none` for NaN;
* boolean incidence matrices are `List (List Bool)`;
* the neural modules (`models.py` and `registry.py` are not part of the
  sources) are opaque parameters: arbitrary functions bundled in `Modules`;
* Python dicts keyed by strings are association lists or functions
  `String → _`; the dicts of `CategoricalField`/`SequentialField`, whose
  values are consecutive indices `0..len-1`, are flattened to index-ordered
  key lists (`keys`) and an index-aligned value array (`rvals`).
-/

set_option linter.unusedVariables false

abbrev Mat := List (List ℚ)
abbrev RawCol := List (List (Option ℚ))
abbrev BoolMat := List (List Bool)

/-- First index in a list satisfying a predicate (the `dict`/`list.index`
style search used throughout the embedding). -/
def findIdxO (p : α → Bool) : List α → Option ℕ
  | [] => none
  | x :: xs => if p x then some 0 else (findIdxO p xs).map (· + 1)

/-- `index_space.masked_select(mask)`: the indices `i < n` whose mask bit is
set.  Mask positions beyond the end of the list read as `false`. -/
def maskedSelect (n : ℕ) (mask : List Bool) : List ℕ :=
  (List.range n).filter (fun i => mask.getD i false)

/-- `torch.index_select(m, 0, idx)` on a float matrix. -/
def indexSelect (m : Mat) (idx : List ℕ) : Mat :=
  idx.map (fun i => m.getD i [])

/-- `torch.index_select(m, 0, idx)` on a raw (possibly-NaN) column. -/
def indexSelectRaw (m : RawCol) (idx : List ℕ) : RawCol :=
  idx.map (fun i => m.getD i [])

/-- `base[idx] = vals`: replace row `idx[k]` of `base` by row `k` of `vals`.
The index lists produced by `maskedSelect` are strictly increasing, hence
duplicate-free, so first-match lookup agrees with torch's semantics. -/
def scatterRows (base : Mat) (idx : List ℕ) (vals : Mat) : Mat :=
  (List.range base.length).map (fun j =>
    match findIdxO (fun i => i == j) idx with
    | some k => vals.getD k (base.getD j [])
    | none => base.getD j [])

/-- `torch.zeros(n, w)`. -/
def zeroMat (n w : ℕ) : Mat :=
  List.replicate n (List.replicate w 0)

/-- `torch.cat([a, b], 1)`. -/
def hcat (a b : Mat) : Mat :=
  List.zipWith (fun r s => r ++ s) a b

/-- `torch.cat(blocks, 1)` over a list of equal-height blocks with `n` rows. -/
def catColumns (blocks : List Mat) (n : ℕ) : Mat :=
  (List.range n).map (fun i => (blocks.map (fun b => b.getD i [])).flatten)

/-- Transpose of a boolean incidence matrix (`v.T`, line 135 of
`ensemble.py`). -/
def transposeBool (m : BoolMat) : BoolMat :=
  (List.range (m.headD []).length).map (fun j => m.map (fun row => row.getD j false))

/-- `Except` success test (Python: the call returned instead of raising). -/
def exceptOk : Except String α → Bool
  | Except.ok _ => true
  | Except.error _ => false

section FieldStates

/-! ## Field codecs (`starcoder/fields.py`)

`Field.observe_value` (lines 34-36) first clears the `empty` flag and then
delegates to the subclass `_observe_value`. -/

/-- State of `NumericField` (fields.py lines 70-91): running min/max,
initialised to `None`. -/
structure NumericFieldState where
  min_val : Option ℚ
  max_val : Option ℚ
  empty : Bool
deriving DecidableEq

def numericFieldInit : NumericFieldState :=
  { min_val := none, max_val := none, empty := true }

/-- `NumericField.observe_value` (lines 34-36 and 77-85) on an
interpretable value. -/
def numericObserve (s : NumericFieldState) (v : ℚ) : NumericFieldState :=
  { max_val := some (match s.max_val with | none => v | some m => max m v),
    min_val := some (match s.min_val with | none => v | some m => min m v),
    empty := false }

/-- State of `CategoricalField` (fields.py lines 146-175).  The dict
`_lookup = {Missing(): 0, v₁: 1, ...}` is flattened to its key list in index
order (`keys`, with `none` for the `Missing` sentinel at index 0), and the
dict `_rlookup`, whose keys are exactly `0..len-1`, to the index-aligned
array `rvals`. -/
structure CatFieldState (α : Type) where
  keys : List (Option α)
  rvals : List (Option α)
  empty : Bool
deriving DecidableEq

def catFieldInit : CatFieldState α :=
  { keys := [none], rvals := [none], empty := true }

/-- `CategoricalField.observe_value` (lines 34-36 and 154-156):
`i = _lookup.setdefault(v, len(_lookup)); _rlookup[i] = v`. -/
def catObserve [DecidableEq α] (s : CatFieldState α) (v : α) : CatFieldState α :=
  match findIdxO (fun k => k = some v) s.keys with
  | some i => { keys := s.keys, rvals := s.rvals.set i (some v), empty := false }
  | none => { keys := s.keys ++ [some v], rvals := s.rvals ++ [some v], empty := false }

/-- `CategoricalField.encode` (line 158-159): `_lookup.get(v, None)`. -/
def catEncode [DecidableEq α] (s : CatFieldState α) (v : Option α) : Option ℕ :=
  findIdxO (fun k => k = v) s.keys

/-- `CategoricalField.decode` (lines 161-169) on a plain index: raises when
the index is not a key of `_rlookup`, otherwise returns the stored value. -/
def catDecode (s : CatFieldState α) (i : ℕ) : Except String (Option α) :=
  match s.rvals.get? i with
  | some kv => Except.ok kv
  | none => Except.error "Could not decode value"

/-- The categorical round trip `encode (decode (encode v)) == encode v` as a
single boolean check, `false` when either stage fails. -/
def catRoundTrip [DecidableEq α] (s : CatFieldState α) (v : Option α) : Bool :=
  match catEncode s v with
  | none => false
  | some i =>
    match catDecode s i with
    | Except.error _ => false
    | Except.ok w => catEncode s w == catEncode s v

/-- State of `SequentialField` (fields.py lines 179-224), flattened the same
way as `CatFieldState` (`_lookup = {None: 0, ...}`). -/
structure SeqFieldState (α : Type) where
  keys : List (Option α)
  rvals : List (Option α)
  max_length : ℕ
  empty : Bool
deriving DecidableEq

def seqFieldInit : SeqFieldState α :=
  { keys := [none], rvals := [none], max_length := 0, empty := true }

/-- One token of `SequentialField._observe_value`'s loop (lines 204-207). -/
def seqTokStep [DecidableEq α] (t : SeqFieldState α) (v : α) : SeqFieldState α :=
  match findIdxO (fun k => k = some v) t.keys with
  | some i => { t with rvals := t.rvals.set i (some v) }
  | none => { t with keys := t.keys ++ [some v], rvals := t.rvals ++ [some v] }

/-- `SequentialField.observe_value` (lines 34-36 and 204-208). -/
def seqObserve [DecidableEq α] (s : SeqFieldState α) (vs : List α) : SeqFieldState α :=
  let t := vs.foldl seqTokStep s
  { t with max_length := max vs.length t.max_length, empty := false }

/-- `SequentialField.encode` (lines 213-215): `[_lookup[e] for e in v]`,
raising `KeyError` on an unobserved token. -/
def seqEncode [DecidableEq α] (s : SeqFieldState α) (vs : List α) : Except String (List ℕ) :=
  vs.mapM (fun e =>
    match findIdxO (fun k => k = some e) s.keys with
    | some i => Except.ok i
    | none => Except.error "KeyError")

/-- `SequentialField.decode` (lines 217-221).  The comprehension's filter
`e not in [Missing.value, Unknown.value]` evaluates `Missing.value` (the
`Missing` class has no attribute `value`) and the undefined name `Unknown`,
so every call raises inside the `try` block and the bare `except` re-raises
the generic decode exception: the function fails on every input. -/
def seqDecode (s : SeqFieldState α) (vs : List ℕ) : Except String String :=
  Except.error "Could not decode values"

end FieldStates

section GraphAutoencoderModel

/-! ## Data model (`starcoder/schemas.py` objects as consumed by `ensemble.py`)

Only the parts of the schema objects that `GraphAutoencoder` reads are
embedded: field names and type names, per-entity-type field and relation
name lists, relation endpoints, and the two distinguished columns. -/

structure FieldSpec where
  name : String
  type_name : String
deriving DecidableEq

structure EntityType where
  name : String
  data_fields : List String
  relation_fields : List String
  reverse_relation_fields : List String
deriving DecidableEq

structure RelationSpec where
  name : String
  source_entity_type : String
  target_entity_type : String
deriving DecidableEq

structure Schema where
  entity_types : List EntityType
  data_fields : List FieldSpec
  relation_fields : List RelationSpec

/-- A batch: the id column, the entity-type tag column, and the remaining
columns keyed by field name (`entities` in `forward`). -/
structure Batch where
  ids : List String
  types : List String
  columns : String → RawCol

/-- The abstract neural modules (built from `models.py`/`registry.py`, which
are not part of the sources): an encoder output width and function per
field. -/
structure FieldEncoderM where
  output_size : ℕ
  encode : RawCol → Mat

/-- An entity autoencoder: `run` returns `(entity_outputs, bottlenecks)`
(the `losses` component of the triple is discarded by `forward`), either of
which may be `None`; `output_size` is the module's declared output width
(used by the `narrow` at line 201). -/
structure AutoencoderM where
  run : Mat → Option Mat × Option Mat
  output_size : ℕ

def defaultAE : AutoencoderM :=
  { run := fun _ => (none, none), output_size := 0 }

structure Modules where
  field_encoders : String → FieldEncoderM
  entity_autoencoders : String → List AutoencoderM
  relation_source_summarizers : String → Mat → List ℚ
  relation_target_summarizers : String → Mat → List ℚ
  projectors : String → Mat → Mat
  field_decoders : String → Mat → Mat

/-- The construction-time configuration a `GraphAutoencoder` instance holds
on to and `forward` reads back (`self.schema`, `self.depth`,
`self.autoencoder_shapes`, `self.reverse_relations`, `self.projected_size`,
`self.base_entity_representation_size`). -/
structure Config where
  schema : Schema
  depth : ℕ
  autoencoder_shapes : List ℕ
  reverse_relations : Bool
  projected_size : ℕ
  base_entity_representation_size : ℕ

/-- `ensemble.py` line 45: `None if autoencoder_shapes in [[], None] else
autoencoder_shapes[-1]` (a `None` shape list is modelled as `[]`). -/
def bottleneckSizeOf (shapes : List ℕ) : Option ℕ :=
  shapes.getLast?

def Config.bottleneckSize (cfg : Config) : Option ℕ :=
  bottleneckSizeOf cfg.autoencoder_shapes

/-! ## Indexing (forward, lines 137-155) -/

/-- Presence mask of one data field (lines 139-147): sequential/text fields
are present when their leading token is nonzero (and never present when the
column has width zero); every other kind is present when the row-sum is not
NaN, i.e. when no entry of the row is NaN. -/
def fieldMask (f : FieldSpec) (col : RawCol) : List Bool :=
  if f.type_name = "sequential" ∨ f.type_name = "text" then
    if (col.headD []).length = 0 then
      List.replicate col.length false
    else
      col.map (fun row =>
        match row.getD 0 (some 0) with
        | none => true
        | some q => q ≠ 0)
  else
    col.map (fun row => row.all (fun c => c.isSome))

def fieldIndices (b : Batch) (f : FieldSpec) : List ℕ :=
  maskedSelect b.types.length (fieldMask f (b.columns f.name))

/-- Line 151: `entities[entity_type_field] == entity_type.name`. -/
def entityMask (b : Batch) (t : String) : List Bool :=
  b.types.map (fun tag => tag == t)

def entityIndices (b : Batch) (t : String) : List ℕ :=
  maskedSelect b.types.length (entityMask b t)

/-- Line 154: `entity_masks[t] & field_masks[f]`. -/
def entityFieldMask (b : Batch) (f : FieldSpec) (t : String) : List Bool :=
  List.zipWith (fun x y => x && y) (entityMask b t) (fieldMask f (b.columns f.name))

/-- Line 155: the derived per-(type, field) index set. -/
def entityFieldIndices (b : Batch) (f : FieldSpec) (t : String) : List ℕ :=
  maskedSelect b.types.length (entityFieldMask b f t)

/-! ## Field encoding (forward, lines 157-166) -/

/-- One field's `N × output_size` encoding tensor: a zero-filled tensor into
which, when any row is present, the encoder's output over the present rows
is scattered back. -/
def fieldEncoding (b : Batch) (enc : FieldEncoderM) (f : FieldSpec) : Mat :=
  let base := zeroMat b.ids.length enc.output_size
  let indices := fieldIndices b f
  if indices.length > 0 then
    scatterRows base indices (enc.encode (indexSelectRaw (b.columns f.name) indices))
  else
    base

def fieldSpecOf (schema : Schema) (fname : String) : FieldSpec :=
  (schema.data_fields.find? (fun f => f.name == fname)).getD { name := fname, type_name := "" }

def fieldEncodingOf (schema : Schema) (b : Batch) (m : Modules) (fname : String) : Mat :=
  fieldEncoding b (m.field_encoders fname) (fieldSpecOf schema fname)

/-! ## Depth-0 input assembly (forward, lines 168-178) -/

/-- One entity type's depth-0 autoencoder input: a `k × 8` zero block (the
width `8` is hard-coded at line 174 of the source), the type's field
encodings restricted to the type's rows, and a `k × 0` zero block,
concatenated along columns. -/
def autoencoderInputs0 (schema : Schema) (b : Batch) (m : Modules) (et : EntityType) : Mat :=
  let k := (entityIndices b et.name).length
  let blocks :=
    [zeroMat k 8]
      ++ et.data_fields.map (fun fname =>
            indexSelect (fieldEncodingOf schema b m fname) (entityIndices b et.name))
      ++ [zeroMat k 0]
  catColumns blocks k

/-! ## Depth-0 autoencoding (forward, lines 186-194) -/

/-- Run every entity type's depth-0 autoencoder, recording its outputs when
they are not `None` and scattering its bottleneck rows (when not `None`)
into the global bottleneck tensor. -/
def depth0Run (schema : Schema) (m : Modules) (b : Batch) (bottlenecks : Mat) :
    (String → Option Mat) × Mat :=
  schema.entity_types.foldl
    (fun st et =>
      let (eo, bo) := ((m.entity_autoencoders et.name).headD defaultAE).run
          (autoencoderInputs0 schema b m et)
      let outs := match eo with
        | some o => fun n => if n == et.name then some o else st.1 n
        | none => st.1
      let bns := match bo with
        | some bv => scatterRows st.2 (entityIndices b et.name) bv
        | none => st.2
      (outs, bns))
    ((fun _ => none), bottlenecks)

/-! ## Relation summarization (forward, lines 203-225) -/

/-- One relation's `len(idx) × bottleneck_size` summary block (the loop at
lines 205-212, also reused verbatim for reverse relations at lines
217-224): a zero tensor whose row `i` is overwritten by the summarizer over
the `prev_bottlenecks` rows selected by row `index` of the relation's
adjacency matrix, provided the relation is present in the supplied
adjacency mapping and selects at least one neighbor. -/
def relationReps (n bw : ℕ) (adjacencies : List (String × BoolMat)) (prev : Mat)
    (summarize : Mat → List ℚ) (rel : String) (idx : List ℕ) : Mat :=
  idx.map (fun index =>
    match adjacencies.lookup rel with
    | none => List.replicate bw 0
    | some adj =>
      let related := maskedSelect n (adj.getD index [])
      if related.length > 0 then summarize (indexSelect prev related)
      else List.replicate bw 0)

/-! ## One depth of propagation (forward, lines 200-239) -/

/-- The body of the depth loop for one depth value: for each entity type,
truncate its previous outputs to the depth-0 autoencoder's output width,
append one summary block per outgoing relation (using the relation's
*target* summarizer, line 204) and then — when reverse relations are
enabled — per incoming relation (using the relation's *source* summarizer
over the *untransposed* adjacency rows, lines 216 and 221), feed the result
to the depth-indexed autoencoder (falling back to the last one when the
requested depth exceeds the stack), and scatter the new bottleneck rows
when the output width is nonzero. -/
def depthStep (schema : Schema) (m : Modules) (b : Batch)
    (adjacencies : List (String × BoolMat)) (n bw : ℕ) (reverse_relations : Bool)
    (prev : Mat) (st : (String → Option Mat) × Mat) (depth : ℕ) :
    (String → Option Mat) × Mat :=
  schema.entity_types.foldl
    (fun st et =>
      let (outs, bns) := st
      let aes := m.entity_autoencoders et.name
      let truncated := ((outs et.name).getD []).map (fun row => row.take (aes.headD defaultAE).output_size)
      let outs1 : String → Option Mat := fun nm => if nm == et.name then some truncated else outs nm
      let idx := entityIndices b et.name
      let fwdReps := et.relation_fields.map (fun rel =>
        relationReps n bw adjacencies prev (m.relation_target_summarizers rel) rel idx)
      let revReps := if reverse_relations then
          et.reverse_relation_fields.map (fun rel =>
            relationReps n bw adjacencies prev (m.relation_source_summarizers rel) rel idx)
        else []
      let other_reps := fwdReps ++ revReps
      let other := if other_reps.length > 0 then catColumns other_reps idx.length
        else zeroMat truncated.length 0
      let input := hcat truncated other
      let ae := if depth > aes.length - 1 then aes.getLastD defaultAE else aes.getD depth defaultAE
      let (eo, bo) := ae.run input
      let outs2 : String → Option Mat := fun nm => if nm == et.name then eo else outs1 nm
      let outWidth := match eo with
        | some o => (o.headD []).length
        | none => 0
      let bns2 := if outWidth ≠ 0 then
          match bo with
          | some bv => scatterRows bns idx bv
          | none => bns
        else bns
      (outs2, bns2))
    st

/-! ## Projection and decoding (forward, lines 242-256) -/

structure ForwardOut where
  recon_fields : List (String × Mat)
  recon_ids : List String
  recon_types : List String
  bottlenecks : Mat
  boundary_pairs : List (Mat × Mat)
deriving DecidableEq

/-- Lines 242-256: project each recorded entity-type output into the common
width, scatter by entity index, decode every data field from the projected
tensor, and pass the id and entity-type columns through unchanged.
`autoencoder_boundary_pairs` is initialised to `[]` at line 133 and never
appended to. -/
def forwardPost (schema : Schema) (m : Modules) (b : Batch) (projected_size : ℕ)
    (outs : String → Option Mat) (bottlenecks : Mat) : ForwardOut :=
  let resized := schema.entity_types.foldl
    (fun acc et =>
      match outs et.name with
      | some o => scatterRows acc (entityIndices b et.name) (m.projectors et.name o)
      | none => acc)
    (zeroMat b.ids.length projected_size)
  { recon_fields := schema.data_fields.map (fun f => (f.name, m.field_decoders f.name resized)),
    recon_ids := b.ids,
    recon_types := b.types,
    bottlenecks := bottlenecks,
    boundary_pairs := [] }

/-! ## The forward computation (forward, lines 124-256) -/

/-- `GraphAutoencoder.forward`.  The indexing, encoding and assembly steps
(lines 126-178) are total, so the first point where execution can fail is
the bottleneck allocation `torch.zeros(num_entities, self.bottleneck_size)`
at line 184, which raises when `bottleneck_size` is `None` (empty
`autoencoder_shapes`).  Note that `prev_bottlenecks = bottlenecks.clone()`
is executed once, at line 197, *before* the depth loop, and is never
refreshed inside it. -/
def forward (cfg : Config) (m : Modules) (b : Batch)
    (adjacencies : List (String × BoolMat)) : Except String ForwardOut :=
  let _rev_adjacencies := adjacencies.map (fun p => (p.1, transposeBool p.2))
  match cfg.bottleneckSize with
  | none => Except.error "zeros: size element is None"
  | some bw =>
    let st0 := depth0Run cfg.schema m b (zeroMat b.ids.length bw)
    let prev_bottlenecks := st0.2
    let stD := (List.range' 1 cfg.depth).foldl
      (fun st d =>
        depthStep cfg.schema m b adjacencies b.types.length bw cfg.reverse_relations
          prev_bottlenecks st d)
      st0
    Except.ok (forwardPost cfg.schema m b cfg.projected_size stD.1 stD.2)

/-- Modelled from the spec: the same pipeline as `forward`, except that the
`prev_bottlenecks` snapshot is re-taken at the start of every depth, as
§4.4 step 5 prescribes ("a snapshot of the bottleneck tensor from the end
of the previous depth"), so depth `k` summarizes depth-`(k-1)` neighbor
bottlenecks. -/
def forwardPerDepthSnapshot (cfg : Config) (m : Modules) (b : Batch)
    (adjacencies : List (String × BoolMat)) : Except String ForwardOut :=
  match cfg.bottleneckSize with
  | none => Except.error "zeros: size element is None"
  | some bw =>
    let st0 := depth0Run cfg.schema m b (zeroMat b.ids.length bw)
    let stD := (List.range' 1 cfg.depth).foldl
      (fun st d =>
        depthStep cfg.schema m b adjacencies b.types.length bw cfg.reverse_relations
          st.2 st d)
      st0
    Except.ok (forwardPost cfg.schema m b cfg.projected_size stD.1 stD.2)

/-- The bottleneck tensor of a forward result (`[]` when the call raised). -/
def bottlenecksOf (r : Except String ForwardOut) : Mat :=
  match r with
  | Except.ok o => o.bottlenecks
  | Except.error _ => []

end GraphAutoencoderModel

section Construction

/-! ## Construction (`GraphAutoencoder.__init__`, lines 26-114)

The neural module constructors themselves (`Autoencoder`, `MLPProjector`,
the summarizer classes — all in `models.py`, which is not among the
sources) are size bookkeeping and are assumed total, as §4.3/§4.4 of the
spec describe them; what is embedded is the arithmetic `__init__` itself
performs, in particular `boundary_size += self.bottleneck_size`, which
raises `TypeError` when `bottleneck_size` is `None`. -/

/-- Lines 57-61: base representation width plus the sum of the type's field
encoder output sizes. -/
def boundarySize (et : EntityType) (base : ℕ) (encSizes : String → ℕ) : ℕ :=
  et.data_fields.foldl (fun acc f => acc + encSizes f) base

/-- `boundary_size += self.bottleneck_size`, executed `k` times: Python
raises `TypeError` when the bottleneck size is `None` and `k > 0`. -/
def addBottlenecks (acc : ℕ) (k : ℕ) (bn : Option ℕ) : Except String ℕ :=
  match k, bn with
  | 0, _ => Except.ok acc
  | _ + 1, none => Except.error "TypeError: unsupported operand types int and NoneType"
  | k + 1, some w => addBottlenecks (acc + w) k bn

/-- The boundary-size arithmetic of the per-type autoencoder loop (lines
66-78) and, when `depth > 0`, of the projector loop (lines 93-103): one
bottleneck-width increment per outgoing relation, plus one per incoming
relation when reverse relations are enabled.  Note that the autoencoder
loop performs these increments at *every* depth, including `depth = 0`. -/
def relationBoundary (et : EntityType) (base : ℕ) (bn : Option ℕ)
    (reverse_relations : Bool) : Except String ℕ := do
  let b1 ← addBottlenecks base et.relation_fields.length bn
  if reverse_relations then
    addBottlenecks b1 et.reverse_relation_fields.length bn
  else
    pure b1

structure InitResult where
  bottleneck_size : Option ℕ
  boundary_sizes : List (String × ℕ)
  projected_size : ℕ
  autoencoders_per_type : ℕ
deriving DecidableEq

/-- `GraphAutoencoder.__init__`: the construction-time computation.  It
fails exactly where the Python constructor raises: in the autoencoder loop
(line 71, and line 74 with reverse relations) or in the projector loop
(lines 98-101, only when `depth > 0`) when a bottleneck-width increment is
applied to the undefined (`None`) bottleneck size. -/
def graphAutoencoderInit (schema : Schema) (depth : ℕ) (autoencoder_shapes : List ℕ)
    (reverse_relations : Bool) (encSizes : String → ℕ) (projected_size_arg : Option ℕ)
    (base : ℕ) : Except String InitResult := do
  let bn := bottleneckSizeOf autoencoder_shapes
  let boundary_sizes := schema.entity_types.map (fun et => (et.name, boundarySize et base encSizes))
  let _ ← schema.entity_types.mapM (fun et =>
    relationBoundary et (boundarySize et base encSizes) bn reverse_relations)
  let projected_size := match projected_size_arg with
    | some p => p
    | none => (boundary_sizes.map (fun p => p.2)).foldl max 0
  let _ ← schema.entity_types.mapM (fun et =>
    if depth > 0 then
      relationBoundary et ((boundary_sizes.lookup et.name).getD 0) bn reverse_relations
    else
      pure 0)
  pure { bottleneck_size := bn,
         boundary_sizes := boundary_sizes,
         projected_size := projected_size,
         autoencoders_per_type := 1 + depth }

end Construction

section ConcreteInputs

/-! ## Concrete instances used by the evaluation theorems -/

/-- A "summarizer" that reports the first neighbor's bottleneck row (enough
to distinguish which snapshot the neighbors were read from). -/
def headSummarizer (m : Mat) : List ℚ :=
  m.headD [0]

/-- An autoencoder that echoes its input and emits the column at position
`w` (its relation-summary slot) as the bottleneck. -/
def lastColAE (w : ℕ) : AutoencoderM :=
  { run := fun inp => (some inp, some (inp.map (fun row => [row.getD w 0]))),
    output_size := w }

/-- Encoders/decoders that the relation-level claims never exercise. -/
def trivialEncoder : FieldEncoderM :=
  { output_size := 0, encode := fun _ => [] }

/-- One entity type `T` with a self-relation `r`, no data fields. -/
def c1Schema : Schema :=
  { entity_types := [{ name := "T", data_fields := [], relation_fields := ["r"],
                       reverse_relation_fields := [] }],
    data_fields := [],
    relation_fields := [{ name := "r", source_entity_type := "T", target_entity_type := "T" }] }

/-- Three entities of type `T`. -/
def c1Batch : Batch :=
  { ids := ["a", "b", "c"], types := ["T", "T", "T"], columns := fun _ => [] }

/-- The chain `0 → 1 → 2` under relation `r`. -/
def c1Adjacencies : List (String × BoolMat) :=
  [("r", [[false, true, false], [false, false, true], [false, false, false]])]

/-- Depth-0 autoencoder for `T`: echoes its input and assigns the
bottlenecks `1, 2, 4` to the three entities. -/
def c1AE0 : AutoencoderM :=
  { run := fun inp => (some inp, some [[1], [2], [4]]), output_size := 8 }

def c1Modules : Modules :=
  { field_encoders := fun _ => trivialEncoder,
    entity_autoencoders := fun _ => [c1AE0, lastColAE 8, lastColAE 8],
    relation_source_summarizers := fun _ => headSummarizer,
    relation_target_summarizers := fun _ => headSummarizer,
    projectors := fun _ m => m,
    field_decoders := fun _ m => m }

def c1Config : Config :=
  { schema := c1Schema, depth := 2, autoencoder_shapes := [1], reverse_relations := false,
    projected_size := 1, base_entity_representation_size := 8 }

end ConcreteInputs

section ConcreteInputsRelations

/-- Two entity types `A` (entity 0) and `B` (entity 1) joined by the
relation `r : A → B`; `B` sees `r` as a reverse relation. -/
def c2Schema : Schema :=
  { entity_types := [
      { name := "A", data_fields := [], relation_fields := ["r"], reverse_relation_fields := [] },
      { name := "B", data_fields := [], relation_fields := [], reverse_relation_fields := ["r"] }],
    data_fields := [],
    relation_fields := [{ name := "r", source_entity_type := "A", target_entity_type := "B" }] }

def c2Batch : Batch :=
  { ids := ["a", "b"], types := ["A", "B"], columns := fun _ => [] }

/-- One edge `0 → 1` under `r`. -/
def c2Adjacencies : List (String × BoolMat) :=
  [("r", [[false, true], [false, false]])]

def c2AE0A : AutoencoderM :=
  { run := fun inp => (some inp, some [[10]]), output_size := 8 }

def c2AE0B : AutoencoderM :=
  { run := fun inp => (some inp, some [[20]]), output_size := 8 }

/-- The source-side summarizer of every relation is the constant `5`, the
target-side one the constant `7`, so which module was applied is visible in
the output. -/
def c2Modules : Modules :=
  { field_encoders := fun _ => trivialEncoder,
    entity_autoencoders := fun n =>
      if n == "A" then [c2AE0A, lastColAE 8] else [c2AE0B, lastColAE 8],
    relation_source_summarizers := fun _ => fun _ => [5],
    relation_target_summarizers := fun _ => fun _ => [7],
    projectors := fun _ m => m,
    field_decoders := fun _ m => m }

def c2Config : Config :=
  { schema := c2Schema, depth := 1, autoencoder_shapes := [1], reverse_relations := true,
    projected_size := 1, base_entity_representation_size := 8 }

/-- The relation-summary block the spec's words prescribe for an outgoing
relation (claim C2): neighbor rows from row `i` of the adjacency matrix,
reduced by the relation's *source-side* summarizer. -/
def claimOutgoingReps (n bw : ℕ) (adjacencies : List (String × BoolMat)) (prev : Mat)
    (m : Modules) (rel : String) (idx : List ℕ) : Mat :=
  relationReps n bw adjacencies prev (m.relation_source_summarizers rel) rel idx

/-- The relation-summary block the spec's words prescribe for an incoming
relation (claim C2): neighbor rows from row `i` of the *transpose* of the
adjacency matrix, reduced by the relation's *target-side* summarizer. -/
def claimIncomingReps (n bw : ℕ) (adjacencies : List (String × BoolMat)) (prev : Mat)
    (m : Modules) (rel : String) (idx : List ℕ) : Mat :=
  relationReps n bw (adjacencies.map (fun p => (p.1, transposeBool p.2))) prev
    (m.relation_target_summarizers rel) rel idx

end ConcreteInputsRelations

section ConcreteInputsAssembly

def c4FieldX : FieldSpec := { name := "x", type_name := "numeric" }

def c4EntityT : EntityType :=
  { name := "T", data_fields := ["x"], relation_fields := [], reverse_relation_fields := [] }

def c4Schema : Schema :=
  { entity_types := [c4EntityT], data_fields := [c4FieldX], relation_fields := [] }

/-- One entity of type `T` with field `x` present. -/
def c4Batch : Batch :=
  { ids := ["a"], types := ["T"], columns := fun n => if n == "x" then [[some 1]] else [] }

/-- The encoder of `x` has output width 2 and emits the row `[3, 3]`. -/
def c4Modules : Modules :=
  { field_encoders := fun _ => { output_size := 2, encode := fun rows => rows.map (fun _ => [3, 3]) },
    entity_autoencoders := fun _ => [defaultAE],
    relation_source_summarizers := fun _ => fun _ => [],
    relation_target_summarizers := fun _ => fun _ => [],
    projectors := fun _ m => m,
    field_decoders := fun _ m => m }

end ConcreteInputsAssembly

section ClaimTheorems1

/-- Claim C1.  With recursion depth `D = 2` and the chain `0 → 1 → 2`, the
source's forward pass takes the `prev_bottlenecks` snapshot once, before
the depth loop (line 197), and never refreshes it, so the depth-2 neighbor
summaries still read the depth-0 bottlenecks `[1, 2, 4]`: entity `0` ends
with bottleneck `2` (the *depth-0* bottleneck of its neighbor `1`).  Under
the claimed discipline — depth `k` reads the snapshot from the end of depth
`k-1` — entity `0` would end with `4` (its neighbor's depth-1 bottleneck),
as the per-depth-snapshot reference computation shows.  The claim therefore
fails on the code for every depth `k ≥ 2`. -/
theorem c1_stale_snapshot_eval :
    bottlenecksOf (forward c1Config c1Modules c1Batch c1Adjacencies) = [[2], [4], [0]] ∧
    bottlenecksOf (forwardPerDepthSnapshot c1Config c1Modules c1Batch c1Adjacencies) =
      [[4], [0], [0]] := by
  constructor
  · decide
  · decide

/-- Claim C2.  With the edge `0 → 1` under `r : A → B`, source-side
summarizer constantly `5` and target-side summarizer constantly `7`: the
code gives entity `0` (outgoing side) the block `[7]` — it applies the
relation's *target* summarizer (line 204), not the source one as claimed —
and gives entity `1` (incoming side, reverse relations enabled) the block
`[0]`, because line 221 reads row `1` of the *untransposed* adjacency
matrix, which is empty, instead of the transpose (the `rev_adjacencies`
computed at line 135 are never used).  The spec-side computations for the
same input produce `[5]` for the outgoing block and `[7]` for the incoming
one, so the claim fails on the code in both respects.  The final bottleneck
tensor is `[[7], [0]]`: `A`'s depth-1 bottleneck carries the target-side
constant, `B`'s carries the zero summary. -/
theorem c2_summarizer_sides_eval :
    bottlenecksOf (forward c2Config c2Modules c2Batch c2Adjacencies) = [[7], [0]] ∧
    relationReps 2 1 c2Adjacencies [[10], [20]]
      (c2Modules.relation_source_summarizers "r") "r" [1] = [[0]] ∧
    claimOutgoingReps 2 1 c2Adjacencies [[10], [20]] c2Modules "r" [0] = [[5]] ∧
    claimIncomingReps 2 1 c2Adjacencies [[10], [20]] c2Modules "r" [1] = [[7]] := by
  refine ⟨by decide, by decide, by decide, by decide⟩

/-- Claim C4.  With the configured base width `B = 4` and one declared
field of encoder width 2, the construction-time boundary size is
`B + 2 = 6` (lines 57-61), but the depth-0 autoencoder input assembled by
`forward` is `[0,0,0,0,0,0,0,0,3,3]`: its zero block has the hard-coded
width `8` of line 174, not width `B`, so the assembled width is `10 ≠ 6`
and the claim fails for every `B ≠ 8`. -/
theorem c4_hardcoded_base_width_eval :
    autoencoderInputs0 c4Schema c4Batch c4Modules c4EntityT = [[0, 0, 0, 0, 0, 0, 0, 0, 3, 3]] ∧
    boundarySize c4EntityT 4 (fun _ => 2) = 6 := by
  refine ⟨by decide, by decide⟩

/-- Claim C7.  For a frozen categorical field that observed `x` and `y`,
`encode (decode (encode v)) == encode v` holds on the index space; but for
a frozen sequential field that observed the sequence `ab`, `encode`
produces `[1, 2]` and `decode` raises on every input (its filter references
`Missing.value` and the undefined name `Unknown`, see fields.py line 219),
so the round trip claimed for sequential fields never completes. -/
theorem c7_round_trip_eval :
    catRoundTrip (catObserve (catObserve (catFieldInit : CatFieldState Char) 'x') 'y')
        (some 'x') = true ∧
    catRoundTrip (catObserve (catObserve (catFieldInit : CatFieldState Char) 'x') 'y')
        (some 'y') = true ∧
    seqEncode (seqObserve (seqFieldInit : SeqFieldState Char) ['a', 'b']) ['a', 'b'] =
      Except.ok [1, 2] ∧
    seqDecode (seqObserve (seqFieldInit : SeqFieldState Char) ['a', 'b']) [1, 2] =
      Except.error "Could not decode values" := by
  refine ⟨by decide, by decide, rfl, rfl⟩

end ClaimTheorems1

section ListHelpers

/-! ## Helper lemmas about the tensor primitives -/

theorem zipWith_and_getD (em fm : List Bool) (i : ℕ) :
    (List.zipWith (fun x y => x && y) em fm).getD i false = (em.getD i false && fm.getD i false) := by
  induction em generalizing fm i with
  | nil => simp [List.getD]
  | cons x xs ih =>
    cases fm with
    | nil => simp [List.getD]
    | cons y ys =>
      cases i with
      | zero => simp [List.getD]
      | succ j => simpa [List.getD] using ih ys j

theorem maskedSelect_and (n : ℕ) (em fm : List Bool) :
    maskedSelect n (List.zipWith (fun x y => x && y) em fm) =
      (maskedSelect n em).inter (maskedSelect n fm) := by
  unfold maskedSelect List.inter
  rw [List.filter_filter]
  refine List.filter_congr ?_
  intro i hi
  rw [zipWith_and_getD]
  simp [List.mem_filter, List.mem_range.mp hi, Bool.and_comm]

theorem findIdxO_eq_none {p : α → Bool} {l : List α} :
    findIdxO p l = none ↔ ∀ x ∈ l, p x = false := by
  induction l with
  | nil => simp [findIdxO]
  | cons x xs ih =>
    by_cases hx : p x <;> simp [findIdxO, hx, ih]

theorem mem_maskedSelect {n : ℕ} {mask : List Bool} {i : ℕ} :
    i ∈ maskedSelect n mask ↔ i < n ∧ mask.getD i false = true := by
  simp [maskedSelect, List.mem_filter, List.mem_range, List.getD_eq_getElem?_getD]

theorem maskedSelect_nil {n : ℕ} {mask : List Bool}
    (h : ∀ i, mask.getD i false = false) : maskedSelect n mask = [] := by
  unfold maskedSelect
  refine List.filter_eq_nil_iff.mpr ?_
  intro i _
  show ¬ mask.getD i false = true
  rw [h i]
  simp

theorem scatterRows_getD_of_not_mem (base : Mat) (idx : List ℕ) (vals : Mat) (j : ℕ)
    (hj : j < base.length) (h : findIdxO (fun i => i == j) idx = none) :
    (scatterRows base idx vals).getD j [] = base.getD j [] := by
  unfold scatterRows
  simp [List.getD_eq_getElem?_getD, List.getElem?_map, List.getElem?_range, hj, h]

theorem zeroMat_getD (n w j : ℕ) (hj : j < n) :
    (zeroMat n w).getD j [] = List.replicate w 0 := by
  unfold zeroMat
  simp [List.getD_eq_getElem?_getD, List.getElem?_replicate, hj]

theorem zeroMat_length (n w : ℕ) : (zeroMat n w).length = n := by
  simp [zeroMat]

end ListHelpers

section ClaimTheorems2

/-- Claim C9.  For every batch, entity type name `t` and data field `f`,
the per-(type, field) index list computed in `forward` (lines 150-155) —
`masked_select` over the conjunction of the entity mask and the field mask
— is exactly the intersection of the entity index list and the field index
list. -/
theorem c9_entity_field_indices_inter (b : Batch) (f : FieldSpec) (t : String) :
    entityFieldIndices b f t = (entityIndices b t).inter (fieldIndices b f) := by
  unfold entityFieldIndices entityFieldMask entityIndices fieldIndices
  exact maskedSelect_and _ _ _

/-- Claim C5.  After the field-encoding step (lines 157-166): (1) for any
field, every row below the entity count whose presence-mask bit is false is
exactly the zero row of width `output_size` (the tensor is allocated with
`torch.full(..., 0.0)` and the scatter only touches present rows; the
codomain `ℚ` of the embedding carries no NaN, matching "exactly zero, not
NaN"); (2) for a numeric field all of whose rows contain a missing (NaN)
entry, the presence mask is everywhere false, the whole encoding tensor is
the zero tensor, and the result is the same for *any* encoder of the same
output width — the encoder is never invoked (the `len(indices) > 0` guard
at line 164 fails). -/
theorem c5_absent_rows_zero (b : Batch) (enc : FieldEncoderM) (f : FieldSpec) :
    (∀ i, i < b.ids.length → (fieldMask f (b.columns f.name)).getD i false = false →
      (fieldEncoding b enc f).getD i [] = List.replicate enc.output_size 0) ∧
    (f.type_name = "numeric" →
      (∀ row ∈ b.columns f.name, none ∈ row) →
      (∀ i, (fieldMask f (b.columns f.name)).getD i false = false) ∧
      fieldEncoding b enc f = zeroMat b.ids.length enc.output_size ∧
      (∀ enc2 : FieldEncoderM, enc2.output_size = enc.output_size →
        fieldEncoding b enc2 f = fieldEncoding b enc f)) := by
  constructor
  · intro i hi hmask
    have hnotmem : i ∉ fieldIndices b f := by
      unfold fieldIndices
      intro hmem
      have h2 := (mem_maskedSelect.mp hmem).2
      rw [hmask] at h2
      exact Bool.false_ne_true h2
    have hfind : findIdxO (fun x => x == i) (fieldIndices b f) = none :=
      findIdxO_eq_none.mpr (fun x hx => by
        rcases eq_or_ne x i with rfl | hne
        · exact absurd hx hnotmem
        · simp [hne])
    unfold fieldEncoding
    by_cases hlen : (fieldIndices b f).length > 0
    · rw [if_pos hlen]
      rw [scatterRows_getD_of_not_mem _ _ _ _ (by rw [zeroMat_length]; exact hi) hfind]
      exact zeroMat_getD _ _ _ hi
    · rw [if_neg hlen]
      exact zeroMat_getD _ _ _ hi
  · intro hnum hmiss
    have hmaskfun : ∀ i, (fieldMask f (b.columns f.name)).getD i false = false := by
      intro i
      unfold fieldMask
      rw [if_neg (by rw [hnum]; decide)]
      rcases lt_or_ge i (b.columns f.name).length with hlt | hge
      · rw [List.getD_eq_getElem?_getD, List.getElem?_map, List.getElem?_eq_getElem hlt]
        simp only [Option.map_some', Option.getD_some]
        refine List.all_eq_false.mpr ?_
        exact ⟨none, hmiss _ (List.getElem_mem hlt), by simp⟩
      · rw [List.getD_eq_getElem?_getD, List.getElem?_map]
        rw [List.getElem?_eq_none (by simpa using hge)]
        rfl
    have hidx : fieldIndices b f = [] := by
      unfold fieldIndices
      exact maskedSelect_nil hmaskfun
    refine ⟨hmaskfun, ?_, ?_⟩
    · unfold fieldEncoding
      rw [hidx]
      simp
    · intro enc2 hsz
      unfold fieldEncoding
      rw [hidx]
      simp [hsz]

/-- Claim C6.  When a schema relation is absent from the supplied adjacency
mapping, or its adjacency matrix has no true entry, the forward computation
still succeeds (given a configured bottleneck width, i.e. a non-empty shape
sequence — `forward` is total past the line-184 allocation), and the
relation's summary block (its contribution to the depth-≥1 autoencoder
input) is exactly the `len(idx) × bottleneck_width` zero block: the
`continue` at lines 207-208 covers the absent relation, and the
`len(related_indices) > 0` guard at line 210 covers empty neighbor sets. -/
theorem c6_zero_edge_relation_zero_block
    (n bw : ℕ) (adjacencies : List (String × BoolMat)) (prev : Mat)
    (summarize : Mat → List ℚ) (rel : String) (idx : List ℕ)
    (cfg : Config) (m : Modules) (b : Batch)
    (hadj : adjacencies.lookup rel = none ∨
      ∃ adj, adjacencies.lookup rel = some adj ∧ ∀ row ∈ adj, ∀ c ∈ row, c = false)
    (hbw : cfg.autoencoder_shapes ≠ []) :
    exceptOk (forward cfg m b adjacencies) = true ∧
    relationReps n bw adjacencies prev summarize rel idx =
      List.replicate idx.length (List.replicate bw 0) := by
  constructor
  · obtain ⟨w, hw⟩ : ∃ w, cfg.bottleneckSize = some w := by
      unfold Config.bottleneckSize bottleneckSizeOf
      exact Option.isSome_iff_exists.mp (List.getLast?_isSome.mpr hbw)
    unfold forward
    rw [hw]
    rfl
  · unfold relationReps
    refine List.eq_replicate_iff.mpr ⟨by simp, ?_⟩
    intro y hy
    rw [List.mem_map] at hy
    obtain ⟨index, hidx, hfx⟩ := hy
    rw [← hfx]
    rcases hadj with hnone | ⟨adj, hsome, hfalse⟩
    · rw [hnone]
    · rw [hsome]
      have hrowfalse : ∀ c ∈ adj.getD index [], c = false := by
        rcases lt_or_ge index adj.length with hlt | hge
        · intro c hc
          rw [List.getD_eq_getElem?_getD, List.getElem?_eq_getElem hlt] at hc
          exact hfalse _ (List.getElem_mem hlt) c (by simpa using hc)
        · intro c hc
          rw [List.getD_eq_getElem?_getD, List.getElem?_eq_none (by simpa using hge)] at hc
          simp at hc
      have hmasknil : maskedSelect n (adj.getD index []) = [] := by
        refine maskedSelect_nil ?_
        intro i
        rcases lt_or_ge i (adj.getD index []).length with hlt | hge
        · rw [List.getD_eq_getElem?_getD, List.getElem?_eq_getElem hlt]
          simpa using hrowfalse _ (List.getElem_mem hlt)
        · rw [List.getD_eq_getElem?_getD, List.getElem?_eq_none (by simpa using hge)]
          rfl
      show (if (maskedSelect n (adj.getD index [])).length > 0 then
          summarize (indexSelect prev (maskedSelect n (adj.getD index [])))
        else List.replicate bw 0) = List.replicate bw 0
      rw [hmasknil]
      simp

/-- Claim C3.  With recursion depth `0` the forward computation never reads
the supplied adjacency mapping (the depth loop `range(1, 0 + 1)` is empty,
and the `rev_adjacencies` of line 135 are dead), so any two adjacency
inputs give identical reconstructions, bottlenecks and diagnostics. -/
theorem c3_depth0_adjacency_independent (cfg : Config) (m : Modules) (b : Batch)
    (adj1 adj2 : List (String × BoolMat)) (h : cfg.depth = 0) :
    forward cfg m b adj1 = forward cfg m b adj2 := by
  unfold forward
  rw [h]
  rfl

end ClaimTheorems2

section ClaimWitnesses2

/-- Concrete all-false adjacency over three entities for relation `r`. -/
def c6Adj : List (String × BoolMat) :=
  [("r", [[false, false, false], [false, false, false], [false, false, false]])]

def c5Field : FieldSpec := { name := "x", type_name := "numeric" }

/-- Two entities whose numeric field `x` is missing (NaN) in every row. -/
def c5Batch : Batch :=
  { ids := ["a", "b"], types := ["T", "T"],
    columns := fun nm => if nm == "x" then [[none], [none]] else [] }

def c5Encoder : FieldEncoderM :=
  { output_size := 2, encode := fun rows => rows.map (fun _ => [9, 9]) }

/-- `c1Config` at recursion depth `0`. -/
def c3Config : Config :=
  { schema := c1Schema, depth := 0, autoencoder_shapes := [1], reverse_relations := false,
    projected_size := 1, base_entity_representation_size := 8 }

/-- Witness for claim C5 at a concrete all-missing numeric column. -/
theorem c5_absent_rows_zero_witness :
    (fieldEncoding c5Batch c5Encoder c5Field).getD 0 [] =
      List.replicate c5Encoder.output_size 0 ∧
    ((∀ i, (fieldMask c5Field (c5Batch.columns c5Field.name)).getD i false = false) ∧
      fieldEncoding c5Batch c5Encoder c5Field = zeroMat c5Batch.ids.length c5Encoder.output_size ∧
      (∀ enc2 : FieldEncoderM, enc2.output_size = c5Encoder.output_size →
        fieldEncoding c5Batch enc2 c5Field = fieldEncoding c5Batch c5Encoder c5Field)) :=
  ⟨(c5_absent_rows_zero c5Batch c5Encoder c5Field).1 0 (by decide) (by decide),
   (c5_absent_rows_zero c5Batch c5Encoder c5Field).2 rfl (by decide)⟩

/-- Witness for claim C6 at a concrete schema relation with zero edges. -/
theorem c6_zero_edge_relation_zero_block_witness :
    exceptOk (forward c1Config c1Modules c1Batch c6Adj) = true ∧
    relationReps 3 1 c6Adj [[1], [2], [4]] headSummarizer "r" [0, 1, 2] =
      List.replicate 3 (List.replicate 1 0) :=
  c6_zero_edge_relation_zero_block 3 1 c6Adj [[1], [2], [4]] headSummarizer "r" [0, 1, 2]
    c1Config c1Modules c1Batch
    (Or.inr ⟨[[false, false, false], [false, false, false], [false, false, false]],
      by decide, by decide⟩)
    (by decide)

/-- Witness for claim C3: at depth `0`, the chain adjacency and the empty
adjacency produce the same forward result. -/
theorem c3_depth0_adjacency_independent_witness :
    forward c3Config c1Modules c1Batch c1Adjacencies = forward c3Config c1Modules c1Batch [] :=
  c3_depth0_adjacency_independent c3Config c1Modules c1Batch c1Adjacencies [] rfl

end ClaimWitnesses2

section ClaimTheorems3

theorem mapM_error {f : α → Except String β} {l : List α}
    (h : ∃ x ∈ l, ∃ e, f x = Except.error e) :
    ∃ e, l.mapM f = Except.error e := by
  induction l with
  | nil => simp at h
  | cons y ys ih =>
    rw [List.mapM_cons]
    obtain ⟨x, hx, e, hfx⟩ := h
    rcases List.mem_cons.mp hx with rfl | hmem
    · exact ⟨e, by rw [hfx]; rfl⟩
    · cases hfy : f y with
      | error e2 => exact ⟨e2, rfl⟩
      | ok v =>
        obtain ⟨e3, he3⟩ := ih ⟨x, hmem, e, hfx⟩
        refine ⟨e3, ?_⟩
        show (ys.mapM f >>= fun l2 => pure (v :: l2)) = Except.error e3
        rw [he3]
        rfl

/-- With an empty shape list the bottleneck size is `None`, so the very
first `boundary_size += self.bottleneck_size` of a type with at least one
outgoing relation raises. -/
theorem relationBoundary_error (et : EntityType) (base : ℕ) (rev : Bool)
    (hrel : et.relation_fields ≠ []) :
    ∃ e, relationBoundary et base (bottleneckSizeOf []) rev = Except.error e := by
  cases hrf : et.relation_fields with
  | nil => exact absurd hrf hrel
  | cons r rs =>
    refine ⟨"TypeError: unsupported operand types int and NoneType", ?_⟩
    unfold relationBoundary
    rw [hrf]
    rfl

/-- Construction with an empty shape list fails (at any depth, including
`0`) as soon as some entity type declares an outgoing relation: the
increment loop at lines 70-71 is not guarded by the depth. -/
theorem graphAutoencoderInit_error_of_relations
    (schema : Schema) (depth : ℕ) (rev : Bool) (encS : String → ℕ)
    (proj : Option ℕ) (base : ℕ)
    (het : ∃ et ∈ schema.entity_types, et.relation_fields ≠ []) :
    exceptOk (graphAutoencoderInit schema depth [] rev encS proj base) = false := by
  have hbad : ∃ et ∈ schema.entity_types, ∃ e,
      relationBoundary et (boundarySize et base encS) (bottleneckSizeOf []) rev =
        Except.error e := by
    obtain ⟨et, hmem, hrel⟩ := het
    exact ⟨et, hmem, relationBoundary_error et _ rev hrel⟩
  obtain ⟨e, he⟩ := mapM_error hbad
  dsimp only [graphAutoencoderInit]
  rw [he]
  rfl

/-- With an empty shape list, every forward call fails at the line-184
bottleneck allocation `torch.zeros(num_entities, None)`, at depth `0` as
well. -/
theorem forward_error_of_empty_shapes (cfg : Config) (m : Modules) (b : Batch)
    (adj : List (String × BoolMat)) (h : cfg.autoencoder_shapes = []) :
    forward cfg m b adj = Except.error "zeros: size element is None" := by
  unfold forward Config.bottleneckSize bottleneckSizeOf
  rw [h]
  rfl

/-- One entity type `T`, no fields, no relations. -/
def c8Schema : Schema :=
  { entity_types := [{ name := "T", data_fields := [], relation_fields := [],
                       reverse_relation_fields := [] }],
    data_fields := [], relation_fields := [] }

/-- One entity type `S` with an outgoing self-relation `r`. -/
def c8RelSchema : Schema :=
  { entity_types := [{ name := "S", data_fields := [], relation_fields := ["r"],
                       reverse_relation_fields := [] }],
    data_fields := [],
    relation_fields := [{ name := "r", source_entity_type := "S", target_entity_type := "S" }] }

/-- Empty autoencoder shape sequence at depth `0`. -/
def c8Config : Config :=
  { schema := c8Schema, depth := 0, autoencoder_shapes := [], reverse_relations := false,
    projected_size := 1, base_entity_representation_size := 8 }

def c8Modules : Modules :=
  { field_encoders := fun _ => trivialEncoder,
    entity_autoencoders := fun _ => [defaultAE],
    relation_source_summarizers := fun _ => fun _ => [],
    relation_target_summarizers := fun _ => fun _ => [],
    projectors := fun _ m => m,
    field_decoders := fun _ m => m }

def c8Batch : Batch :=
  { ids := ["a"], types := ["T"], columns := fun _ => [] }

/-- Claim C8, counterexample.  With an empty shape sequence and a
relation-free schema, construction *succeeds* at depth `1` (first conjunct
— the claim says depth > 0 with empty shapes is a fatal construction-time
error, but the code performs no such check), and with depth `0` it also
succeeds but the forward computation *fails* at the bottleneck allocation
of line 184 (remaining conjuncts — the claim says depth 0 with empty
shapes constructs and its forward runs).  Both halves of the claim are
therefore false on the code. -/
theorem c8_counterexample :
    exceptOk (graphAutoencoderInit c8Schema 1 [] false (fun _ => 0) none 8) = true ∧
    exceptOk (graphAutoencoderInit c8Schema 0 [] false (fun _ => 0) none 8) = true ∧
    forward c8Config c8Modules c8Batch [] = Except.error "zeros: size element is None" := by
  refine ⟨by decide, by decide, rfl⟩

/-- Claim C8, amended.  With an empty autoencoder shape sequence the
bottleneck width is undefined (`None`) and the model is never usable:
construction raises a `TypeError` (at any requested depth, including `0`)
as soon as some entity type declares an outgoing relation, and even when
construction succeeds every forward call raises at the bottleneck-tensor
allocation, for depth `0` as well; depth > 0 is not rejected at
construction time. -/
theorem c8_amended_empty_shapes
    (schema : Schema) (depth : ℕ) (rev : Bool) (encS : String → ℕ)
    (proj : Option ℕ) (base : ℕ)
    (cfg : Config) (m : Modules) (b : Batch) (adj : List (String × BoolMat))
    (hshapes : cfg.autoencoder_shapes = [])
    (het : ∃ et ∈ schema.entity_types, et.relation_fields ≠ []) :
    exceptOk (graphAutoencoderInit schema depth [] rev encS proj base) = false ∧
    forward cfg m b adj = Except.error "zeros: size element is None" :=
  ⟨graphAutoencoderInit_error_of_relations schema depth rev encS proj base het,
   forward_error_of_empty_shapes cfg m b adj hshapes⟩

/-- Witness for the amended claim C8: a concrete schema with one relation
makes construction fail with empty shapes even at depth `0`, and the
concrete relation-free model's forward call fails at depth `0` too. -/
theorem c8_amended_empty_shapes_witness :
    exceptOk (graphAutoencoderInit c8RelSchema 0 [] false (fun _ => 0) none 8) = false ∧
    forward c8Config c8Modules c8Batch [] = Except.error "zeros: size element is None" :=
  c8_amended_empty_shapes c8RelSchema 0 false (fun _ => 0) none 8 c8Config c8Modules c8Batch []
    rfl
    ⟨{ name := "S", data_fields := [], relation_fields := ["r"],
       reverse_relation_fields := [] }, by decide, by decide⟩

end ClaimTheorems3

section ClaimTheorems4

/-! ## Observation idempotency (claim C10) -/

theorem findIdxO_cons (p : α → Bool) (x : α) (xs : List α) :
    findIdxO p (x :: xs) = if p x then some 0 else (findIdxO p xs).map (· + 1) := rfl

theorem findIdxO_lt_length {p : α → Bool} {l : List α} {i : ℕ}
    (h : findIdxO p l = some i) : i < l.length := by
  induction l generalizing i with
  | nil => simp [findIdxO] at h
  | cons x xs ih =>
    rw [findIdxO_cons] at h
    by_cases hx : p x
    · rw [if_pos hx] at h
      obtain rfl := Option.some_inj.mp h
      simp
    · rw [if_neg hx, Option.map_eq_some'] at h
      obtain ⟨j, hj, hji⟩ := h
      subst hji
      simpa using ih hj

theorem findIdxO_getElem {p : α → Bool} {l : List α} {i : ℕ}
    (h : findIdxO p l = some i) : ∃ a, l[i]? = some a ∧ p a = true := by
  induction l generalizing i with
  | nil => simp [findIdxO] at h
  | cons x xs ih =>
    rw [findIdxO_cons] at h
    by_cases hx : p x
    · rw [if_pos hx] at h
      obtain rfl := Option.some_inj.mp h
      exact ⟨x, by simp, hx⟩
    · rw [if_neg hx, Option.map_eq_some'] at h
      obtain ⟨j, hj, hji⟩ := h
      subst hji
      obtain ⟨a, ha, hpa⟩ := ih hj
      exact ⟨a, by simpa using ha, hpa⟩

theorem findIdxO_append_some {p : α → Bool} {l₁ l₂ : List α} {i : ℕ}
    (h : findIdxO p l₁ = some i) : findIdxO p (l₁ ++ l₂) = some i := by
  induction l₁ generalizing i with
  | nil => simp [findIdxO] at h
  | cons x xs ih =>
    rw [findIdxO_cons] at h
    rw [List.cons_append, findIdxO_cons]
    by_cases hx : p x
    · rw [if_pos hx] at h ⊢
      exact h
    · rw [if_neg hx] at h ⊢
      rw [Option.map_eq_some'] at h
      obtain ⟨j, hj, hji⟩ := h
      rw [ih hj]
      simpa using hji

theorem findIdxO_append_none {p : α → Bool} {l₁ : List α} (l₂ : List α)
    (h : findIdxO p l₁ = none) :
    findIdxO p (l₁ ++ l₂) = (findIdxO p l₂).map (fun i => i + l₁.length) := by
  induction l₁ with
  | nil => cases hh : findIdxO p l₂ <;> simp [hh]
  | cons x xs ih =>
    rw [findIdxO_cons] at h
    rw [List.cons_append, findIdxO_cons]
    by_cases hx : p x
    · rw [if_pos hx] at h
      simp at h
    · rw [if_neg hx] at h ⊢
      have hxs : findIdxO p xs = none := Option.map_eq_none'.mp h
      rw [ih hxs]
      cases hh : findIdxO p l₂ <;> simp [hh, Nat.add_assoc]

theorem getElem?_set_self {l : List α} {i : ℕ} {a : α} (h : i < l.length) :
    (l.set i a)[i]? = some a := by
  induction l generalizing i with
  | nil => simp at h
  | cons x xs ih =>
    cases i with
    | zero => simp
    | succ j => simpa using ih (by simpa using h)

theorem set_getElem?_eq {l : List α} {i : ℕ} {a : α} (h : l[i]? = some a) :
    l.set i a = l := by
  induction l generalizing i with
  | nil => simp at h
  | cons x xs ih =>
    cases i with
    | zero =>
      simp only [List.getElem?_cons_zero, Option.some_inj] at h
      simp [h]
    | succ j =>
      simp only [List.getElem?_cons_succ] at h
      simp [ih h]

theorem getElem?_append_singleton (l : List α) (a : α) : (l ++ [a])[l.length]? = some a := by
  induction l with
  | nil => simp
  | cons x xs ih => simp [ih]

theorem set_append_singleton (l : List α) (a b : α) :
    (l ++ [a]).set l.length b = l ++ [b] := by
  induction l with
  | nil => rfl
  | cons x xs ih =>
    show x :: (xs ++ [a]).set xs.length b = x :: (xs ++ [b])
    rw [ih]

theorem numericObserve_idem (s : NumericFieldState) (v : ℚ) :
    numericObserve (numericObserve s v) v = numericObserve s v := by
  obtain ⟨mn, mx, em⟩ := s
  cases mn <;> cases mx <;>
    simp [numericObserve, max_assoc, max_self, min_assoc, min_self]

theorem catObserve_idem [DecidableEq α] (s : CatFieldState α) (v : α)
    (hlen : s.rvals.length = s.keys.length) :
    catObserve (catObserve s v) v = catObserve s v := by
  cases hf : findIdxO (fun k => k = some v) s.keys with
  | some i =>
    have h1 : catObserve s v =
        { keys := s.keys, rvals := s.rvals.set i (some v), empty := false } := by
      unfold catObserve
      rw [hf]
    rw [h1]
    unfold catObserve
    dsimp only
    rw [hf]
    dsimp only
    rw [List.set_set]
  | none =>
    have h1 : catObserve s v =
        { keys := s.keys ++ [some v], rvals := s.rvals ++ [some v], empty := false } := by
      unfold catObserve
      rw [hf]
    rw [h1]
    unfold catObserve
    dsimp only
    rw [findIdxO_append_none _ hf]
    have h2 : findIdxO (fun k => k = some v) [some v] = some 0 := by simp [findIdxO]
    rw [h2]
    dsimp only [Option.map_some']
    rw [Nat.zero_add, ← hlen, set_append_singleton]

/-- A token is registered in a sequential-field state when the key lookup
finds it and the reverse array stores it at the found index. -/
def seqRegistered [DecidableEq α] (t : SeqFieldState α) (v : α) : Prop :=
  ∃ i, findIdxO (fun k => k = some v) t.keys = some i ∧ t.rvals[i]? = some (some v)

theorem seqTokStep_len [DecidableEq α] {t : SeqFieldState α} {v : α}
    (h : t.rvals.length = t.keys.length) :
    (seqTokStep t v).rvals.length = (seqTokStep t v).keys.length := by
  unfold seqTokStep
  cases hf : findIdxO (fun k => k = some v) t.keys <;> simp [h]

theorem seqTokStep_registers [DecidableEq α] {t : SeqFieldState α} {v : α}
    (hlen : t.rvals.length = t.keys.length) :
    seqRegistered (seqTokStep t v) v := by
  unfold seqTokStep seqRegistered
  cases hf : findIdxO (fun k => k = some v) t.keys with
  | some i =>
    refine ⟨i, hf, ?_⟩
    exact getElem?_set_self (hlen ▸ findIdxO_lt_length hf)
  | none =>
    refine ⟨t.keys.length, ?_, ?_⟩
    · rw [findIdxO_append_none _ hf]
      simp [findIdxO]
    · dsimp only
      rw [← hlen]
      exact getElem?_append_singleton _ _

theorem seqTokStep_preserves [DecidableEq α] {t : SeqFieldState α} {w : α} (v : α)
    (hreg : seqRegistered t w) : seqRegistered (seqTokStep t v) w := by
  obtain ⟨j, hj, hrv⟩ := hreg
  unfold seqTokStep seqRegistered
  cases hf : findIdxO (fun k => k = some v) t.keys with
  | some i =>
    refine ⟨j, hj, ?_⟩
    dsimp only
    rcases eq_or_ne i j with rfl | hne
    · obtain ⟨a, ha, hpa⟩ := findIdxO_getElem hf
      obtain ⟨a2, ha2, hpa2⟩ := findIdxO_getElem hj
      rw [ha] at ha2
      obtain rfl := Option.some_inj.mp ha2
      have hv : a = some v := by simpa using hpa
      have hw : a = some w := by simpa using hpa2
      have hvw : some v = some (w : α) := hv ▸ hw ▸ rfl
      have hlt : i < t.rvals.length := by
        rcases List.getElem?_eq_some.mp hrv with ⟨hh, _⟩
        exact hh
      rw [getElem?_set_self hlt, hvw]
    · rw [List.getElem?_set_ne hne]
      exact hrv
  | none =>
    refine ⟨j, findIdxO_append_some hj, ?_⟩
    dsimp only
    have hlt : j < t.rvals.length := by
      rcases List.getElem?_eq_some.mp hrv with ⟨hh, _⟩
      exact hh
    rw [List.getElem?_append, if_pos hlt]
    exact hrv

theorem seqFold_len [DecidableEq α] (vs : List α) (t : SeqFieldState α)
    (h : t.rvals.length = t.keys.length) :
    (vs.foldl seqTokStep t).rvals.length = (vs.foldl seqTokStep t).keys.length := by
  induction vs generalizing t with
  | nil => exact h
  | cons v vs ih => exact ih _ (seqTokStep_len h)

theorem seqFold_preserves [DecidableEq α] (vs : List α) (t : SeqFieldState α) (w : α)
    (hreg : seqRegistered t w) : seqRegistered (vs.foldl seqTokStep t) w := by
  induction vs generalizing t with
  | nil => exact hreg
  | cons v vs ih => exact ih _ (seqTokStep_preserves v hreg)

theorem seqFold_registers [DecidableEq α] (vs : List α) (t : SeqFieldState α)
    (hlen : t.rvals.length = t.keys.length) :
    ∀ v ∈ vs, seqRegistered (vs.foldl seqTokStep t) v := by
  induction vs generalizing t with
  | nil => intro v hv; simp at hv
  | cons u us ih =>
    intro v hv
    rcases List.mem_cons.mp hv with rfl | hmem
    · exact seqFold_preserves us _ v (seqTokStep_registers hlen)
    · exact ih _ (seqTokStep_len hlen) v hmem

theorem seqTokStep_noop [DecidableEq α] {t : SeqFieldState α} {v : α}
    (hreg : seqRegistered t v) : seqTokStep t v = t := by
  obtain ⟨i, hi, hrv⟩ := hreg
  unfold seqTokStep
  rw [hi]
  dsimp only
  rw [set_getElem?_eq hrv]

theorem seqFold_noop [DecidableEq α] (vs : List α) (t : SeqFieldState α)
    (h : ∀ v ∈ vs, seqRegistered t v) : vs.foldl seqTokStep t = t := by
  induction vs with
  | nil => rfl
  | cons u us ih =>
    rw [List.foldl_cons, seqTokStep_noop (h u (by simp))]
    exact ih (fun v hv => h v (by simp [hv]))

theorem seqObserve_eq [DecidableEq α] (s : SeqFieldState α) (vs : List α) :
    seqObserve s vs =
      { keys := (vs.foldl seqTokStep s).keys,
        rvals := (vs.foldl seqTokStep s).rvals,
        max_length := max vs.length (vs.foldl seqTokStep s).max_length,
        empty := false } := rfl

theorem seqObserve_idem [DecidableEq α] (s : SeqFieldState α) (vs : List α)
    (hlen : s.rvals.length = s.keys.length) :
    seqObserve (seqObserve s vs) vs = seqObserve s vs := by
  rw [seqObserve_eq s vs, seqObserve_eq]
  rw [seqFold_noop vs
    { keys := (List.foldl seqTokStep s vs).keys,
      rvals := (List.foldl seqTokStep s vs).rvals,
      max_length := max vs.length (List.foldl seqTokStep s vs).max_length,
      empty := false }
    (fun v hv => seqFold_registers vs s hlen v hv)]
  dsimp only
  rw [← max_assoc, max_self]

/-- Claim C10.  Observing the same raw value twice in succession leaves a
field's accumulated state exactly as after observing it once: for numeric
fields the min/max statistics and emptiness flag (since
`max (max m v) v = max m v`), for categorical fields the lookup tables and
emptiness flag, and for sequential fields the token tables and maximum
length.  The lookup-table states carry the structural invariant of every
reachable state — the reverse array is index-aligned with the key list
(`_rlookup`'s keys are exactly `0..len(_lookup)-1`). -/
theorem c10_observe_idempotent :
    (∀ (s : NumericFieldState) (v : ℚ),
      numericObserve (numericObserve s v) v = numericObserve s v) ∧
    (∀ (s : CatFieldState ℚ) (v : ℚ), s.rvals.length = s.keys.length →
      catObserve (catObserve s v) v = catObserve s v) ∧
    (∀ (s : SeqFieldState ℚ) (vs : List ℚ), s.rvals.length = s.keys.length →
      seqObserve (seqObserve s vs) vs = seqObserve s vs) :=
  ⟨numericObserve_idem,
   fun s v h => catObserve_idem s v h,
   fun s vs h => seqObserve_idem s vs h⟩

/-- Witness for claim C10 at concrete freshly-initialised field states. -/
theorem c10_observe_idempotent_witness :
    numericObserve (numericObserve numericFieldInit 5) 5 = numericObserve numericFieldInit 5 ∧
    catObserve (catObserve (catFieldInit : CatFieldState ℚ) 3) 3 =
      catObserve (catFieldInit : CatFieldState ℚ) 3 ∧
    seqObserve (seqObserve (seqFieldInit : SeqFieldState ℚ) [1, 2, 1]) [1, 2, 1] =
      seqObserve (seqFieldInit : SeqFieldState ℚ) [1, 2, 1] :=
  ⟨c10_observe_idempotent.1 numericFieldInit 5,
   c10_observe_idempotent.2.1 catFieldInit 3 rfl,
   c10_observe_idempotent.2.2 seqFieldInit [1, 2, 1] rfl⟩

end ClaimTheorems4
